import Mathlib

/-!
# Verification of the mfdread Mifare dump parser core

Shallow embedding of the layout-resolution and access-condition decoding
engine from `src/main.c`, together with theorems settling the spec claims.

Machine integers are modelled as `Nat`: all source values involved are
non-negative C `unsigned` values whose intermediate results stay far below
2^32, so no wraparound can occur and plain `Nat` arithmetic is faithful.
ANSI color escape prefixes are modelled in no-color mode, where the source
replaces every color variable by the empty string; the surrounding row text
is unchanged by this choice.
-/

namespace Mfdread

/-- The four access-control bytes of a sector trailer
(`unsigned char* access_bits` in the source; byte 3 is a spare). -/
structure AccessBits where
  b0 : Nat
  b1 : Nat
  b2 : Nat
  b3 : Nat
deriving Repr, DecidableEq

/-- Direct access bits assembled per slot, mirroring the `bits` assignments of
the `switch(block)` in `get_access_condition` (src/main.c lines 180-216). -/
def bitsOf : Nat → AccessBits → Nat
  | 0, a => ((a.b1 >>> 2) &&& 0x04) ||| ((a.b2 <<< 1) &&& 0x02) ||| ((a.b2 >>> 4) &&& 0x01)
  | 1, a => ((a.b1 >>> 3) &&& 0x04) ||| ((a.b2 <<< 0) &&& 0x02) ||| ((a.b2 >>> 5) &&& 0x01)
  | 2, a => ((a.b1 >>> 4) &&& 0x04) ||| ((a.b2 >>> 1) &&& 0x02) ||| ((a.b2 >>> 6) &&& 0x01)
  | 3, a => ((a.b1 >>> 5) &&& 0x04) ||| ((a.b2 >>> 2) &&& 0x02) ||| ((a.b2 >>> 7) &&& 0x01)
  | _, _ => 0

/-- Inverted access bits assembled per slot, mirroring the `inverted`
assignments of the same `switch(block)` (src/main.c lines 180-216). -/
def invertedOf : Nat → AccessBits → Nat
  | 0, a => ((a.b0 <<< 2) &&& 0x04) ||| ((a.b0 >>> 3) &&& 0x02) ||| ((a.b1 >>> 0) &&& 0x01)
  | 1, a => ((a.b0 <<< 1) &&& 0x04) ||| ((a.b0 >>> 4) &&& 0x02) ||| ((a.b1 >>> 1) &&& 0x01)
  | 2, a => ((a.b0 <<< 0) &&& 0x04) ||| ((a.b0 >>> 5) &&& 0x02) ||| ((a.b1 >>> 2) &&& 0x01)
  | 3, a => ((a.b0 >>> 1) &&& 0x04) ||| ((a.b0 >>> 6) &&& 0x02) ||| ((a.b1 >>> 3) &&& 0x01)
  | _, _ => 0

/-- `get_access_condition` (src/main.c lines 166-228).  Sectors `>= 32` reduce
the block index to a 5-block cluster index; the `switch` default returns `-1`;
otherwise the direct bits are checked against the complemented inverted bits
(`bits != ((~inverted)&0x07)` — for an unsigned `inverted` this low 3-bit
complement is `7 ^^^ (inverted &&& 7)`). -/
def get_access_condition (sector block : Nat) (a : AccessBits) : Int :=
  let b := if 32 ≤ sector then block / 5 else block
  if b ≤ 3 then
    let bits := bitsOf b a
    let inverted := invertedOf b a
    if bits = 7 ^^^ (inverted &&& 0x07) then (bits : Int) else -1
  else
    -1

/-- Direct access bit C1 for slot `k`: bit `4 + k` of access byte 1
(the fixed per-slot position named in the spec and in the source comments
`C10` … `C13`). -/
def C1bit (k : Nat) (a : AccessBits) : Nat := (a.b1 >>> (4 + k)) &&& 1

/-- Direct access bit C2 for slot `k`: bit `k` of access byte 2. -/
def C2bit (k : Nat) (a : AccessBits) : Nat := (a.b2 >>> k) &&& 1

/-- Direct access bit C3 for slot `k`: bit `4 + k` of access byte 2. -/
def C3bit (k : Nat) (a : AccessBits) : Nat := (a.b2 >>> (4 + k)) &&& 1

/-- Geometry / report failure: the dump length matches no recognized size.
The error surfaces the actual length and the allowed set, mirroring the
`fprintf` of the `switch(data_size)` default branch (src/main.c lines 262-265). -/
inductive GeomError where
  | invalidLength (actual : Nat) (allowed : List Nat)
deriving Repr, DecidableEq

/-- The `switch(data_size)` of `print_info` (src/main.c lines 248-266):
recognized dump lengths and their sector counts. -/
def sectorsOfSize (n : Nat) : Except GeomError Nat :=
  if n = 320 then .ok 5
  else if n = 1024 then .ok 16
  else if n = 2048 then .ok 32
  else if n = 4096 then .ok (32 + 8)
  else .error (.invalidLength n [320, 1024, 2048, 4096])

/-- `if(force_1k) { data_size = 1024; }` (src/main.c lines 243-246): in forced
mode the size used by the geometry switch is 1024 regardless of the number of
bytes actually read. -/
def effectiveSize (force_1k : Bool) (bytesRead : Nat) : Nat :=
  if force_1k then 1024 else bytesRead

/-- Per-sector block count (src/main.c lines 300-313): 4 for standard sectors
(index < 32), 16 for extended sectors. -/
def blocksIn (sector : Nat) : Nat := if sector < 32 then 4 else 16

/-- `block_size` is 16 in both regimes (src/main.c lines 303 and 310). -/
def block_size : Nat := 16

/-- `sector_size = block_size * blocks` (src/main.c lines 304 and 311). -/
def sectorSize (sector : Nat) : Nat := block_size * blocksIn sector

/-- Sector byte offset (src/main.c lines 305 and 312):
`sector * sector_size` for standard sectors,
`2048 + (sector - 32) * sector_size` for extended sectors. -/
def sectorStart (sector : Nat) : Nat :=
  if sector < 32 then sector * sectorSize sector
  else 2048 + (sector - 32) * sectorSize sector

/-- A dump is modelled as its byte-at-offset function (the zero-initialized
`data` buffer after `fread`). -/
def Dump := Nat → Nat

/-- The sector's access bytes, read from its trailer:
`access_bits = &data[sector_start + sector_size - block_size + 6]`
(src/main.c line 316). -/
def accessBitsOf (data : Dump) (sector : Nat) : AccessBits :=
  let base := sectorStart sector + sectorSize sector - block_size + 6
  ⟨data base, data (base + 1), data (base + 2), data (base + 3)⟩

/-- `bit_rep` (src/main.c lines 72-75). -/
def bit_rep : List String :=
  ["000", "001", "010", "011", "100", "101", "110", "111"]

/-- `permission_trailer` (src/main.c lines 77-87), verbatim. -/
def permission_trailer : List String :=
  [ "- A | A   - | A A",
    "- A | A   A | A A [transport]",
    "- - | A   - | A -",
    "- B | A/B B | - B",
    "- B | A/B - | - B",
    "- - | A/B B | - -",
    "- - | A/B - | - -",
    "- - | A/B - | - -" ]

/-- `permission_data` (src/main.c lines 89-99), verbatim. -/
def permission_data : List String :=
  [ "A/B | A/B   | A/B | A/B [transport]",
    "A/B |  -    |  -  | A/B [value]",
    "A/B |  -    |  -  |  -  [r/w]",
    "  B |   B   |  -  |  -  [r/w]",
    "A/B |   B   |  -  |  -  [r/w]",
    "  B |  -    |  -  |  -  [r/w]",
    "A/B |   B   |   B | A/B [value]",
    " -  |  -    |  -  |  -  [r/w]" ]

/-- The access-bits column and permission column of one row, mirroring the
`if`/`else` chain of src/main.c lines 376-405 (color escapes modelled in
no-color mode, where the source sets every color variable to `""`):
invalid condition → `ERR` marker and empty permissions; manufacturer block
(sector 0, block 0) → fixed `-`; trailer block → `permission_trailer` entry;
otherwise → `permission_data` entry. -/
def rowFields (sector block blocks : Nat) (access_condition : Int) : String × String :=
  if access_condition < 0 ∨ 7 < access_condition then
    ("ERR", "")
  else if block = 0 ∧ sector = 0 then
    (bit_rep.getD access_condition.toNat "", "-")
  else if block = blocks - 1 then
    (bit_rep.getD access_condition.toNat "",
     permission_trailer.getD access_condition.toNat "")
  else
    (bit_rep.getD access_condition.toNat "",
     permission_data.getD access_condition.toNat "")

/-- One row of the report model: the fields of the per-block `printf`
relevant to decoding (src/main.c lines 331-409). -/
structure Row where
  str_sector : String
  block : Nat
  str_access_bits : String
  str_permissions : String
deriving Repr, DecidableEq

/-- Builds the row for one block: the sector label is shown next to the
second block (src/main.c lines 332-339); the access/permission columns come
from `rowFields`. -/
def rowFor (sector block blocks : Nat) (access_condition : Int) : Row :=
  { str_sector := if block = 1 then toString sector else ""
    block := block
    str_access_bits := (rowFields sector block blocks access_condition).1
    str_permissions := (rowFields sector block blocks access_condition).2 }

/-- All rows of one sector: the inner block loop of `print_info`
(src/main.c lines 319-411), each block decoded against the sector's trailer
access bytes. -/
def sectorRows (data : Dump) (sector : Nat) : List Row :=
  (List.range (blocksIn sector)).map fun block =>
    rowFor sector block (blocksIn sector)
      (get_access_condition sector block (accessBitsOf data sector))

/-- The full report model of `print_info` (src/main.c lines 248-413): resolve
the geometry from the size, then walk every sector and block; an unrecognized
size aborts before any row is produced. -/
def reportRows (data : Dump) (size : Nat) : Except GeomError (List Row) :=
  (sectorsOfSize size).map fun sectors =>
    (List.range sectors).flatMap (sectorRows data)

/-- Total number of blocks across all sectors of a geometry. -/
def totalBlocks (sectors : Nat) : Nat :=
  ((List.range sectors).map blocksIn).sum

/-- A default row, used only as the `List.getD` fallback in statements. -/
def emptyRow : Row := ⟨"", 0, "", ""⟩

/-! ## Helper lemmas -/

lemma and4_plain (n : Nat) : n &&& 4 = (n.testBit 2).toNat * 4 := by
  have h := Nat.and_two_pow n 2
  norm_num at h
  exact h

lemma and2_plain (n : Nat) : n &&& 2 = (n.testBit 1).toNat * 2 := by
  have h := Nat.and_two_pow n 1
  norm_num at h
  exact h

lemma and1_plain (n : Nat) : n &&& 1 = (n.testBit 0).toNat := by
  have h := Nat.and_two_pow n 0
  rw [pow_zero, mul_one] at h
  exact h

lemma and4_shr (n s : Nat) : (n >>> s) &&& 4 = (n.testBit (s + 2)).toNat * 4 := by
  rw [and4_plain, Nat.testBit_shiftRight]

lemma and2_shr (n s : Nat) : (n >>> s) &&& 2 = (n.testBit (s + 1)).toNat * 2 := by
  rw [and2_plain, Nat.testBit_shiftRight]

lemma and1_shr (n s : Nat) : (n >>> s) &&& 1 = (n.testBit (s + 0)).toNat := by
  rw [and1_plain, Nat.testBit_shiftRight]

lemma and2_shl1 (n : Nat) : (n <<< 1) &&& 2 = (n.testBit 0).toNat * 2 := by
  rw [and2_plain, Nat.testBit_shiftLeft]
  norm_num

lemma and2_shl0 (n : Nat) : (n <<< 0) &&& 2 = (n.testBit 1).toNat * 2 := by
  rw [Nat.shiftLeft_zero, and2_plain]

lemma or_toNat (x y z : Bool) :
    x.toNat * 4 ||| y.toNat * 2 ||| z.toNat = x.toNat * 4 + y.toNat * 2 + z.toNat := by
  cases x <;> cases y <;> cases z <;> rfl

/-- On every valid slot, the assembled direct bits are the C1, C2, C3 bits of
that slot with C1 as the most significant bit. -/
lemma bitsOf_eq_direct (k : Nat) (hk : k < 4) (a : AccessBits) :
    bitsOf k a = C1bit k a * 4 + C2bit k a * 2 + C3bit k a := by
  interval_cases k <;>
    simp only [bitsOf, C1bit, C2bit, C3bit, and4_shr, and2_shr, and1_shr,
      and2_shl1, and2_shl0, Nat.shiftRight_zero, and1_plain] <;>
    · norm_num
      rw [or_toNat]

/-- The assembled direct bits are always a 3-bit value. -/
lemma bitsOf_lt (k : Nat) (a : AccessBits) : bitsOf k a < 8 := by
  have h8 : (8 : Nat) = 2 ^ 3 := by norm_num
  match k with
  | 0 | 1 | 2 | 3 =>
    rw [bitsOf, h8]
    refine Nat.or_lt_two_pow (Nat.or_lt_two_pow ?_ ?_) ?_ <;>
      exact lt_of_le_of_lt Nat.and_le_right (by norm_num)
  | (n + 4) =>
    have h0 : bitsOf (n + 4) a = 0 := rfl
    rw [h0]; norm_num

/-- Each sector contributes exactly `blocksIn` rows. -/
lemma sectorRows_length (data : Dump) (s : Nat) :
    (sectorRows data s).length = blocksIn s := by
  simp [sectorRows]

/-- Row `b` of a sector is the row built from block `b`'s own decode. -/
lemma sectorRows_getD (data : Dump) (s b : Nat) (hb : b < blocksIn s) :
    (sectorRows data s).getD b emptyRow =
      rowFor s b (blocksIn s) (get_access_condition s b (accessBitsOf data s)) := by
  simp [sectorRows, List.getD_eq_getElem?_getD, List.getElem?_range, hb]

/-! ## Claim theorems -/

/-- C1: for every 4-byte access_bits array and every slot index `k` in 0..3,
the decoder returns the 3-bit direct value `bits` for slot `k` exactly when
`bits == (~inverted) & 0b111` holds for the inverted 3-bit value assembled
from the complemented positions of slot `k`; when the equality fails it
returns the ChecksumMismatch failure `-1`, and it never returns a guessed
numeric value (the result is always either the true direct bits or `-1`). -/
theorem c1_checksum_gate (a : AccessBits) (k : Nat) (hk : k < 4) :
    (get_access_condition 0 k a = (bitsOf k a : Int) ↔
      bitsOf k a = 7 ^^^ (invertedOf k a &&& 0x07)) ∧
    (bitsOf k a ≠ 7 ^^^ (invertedOf k a &&& 0x07) →
      get_access_condition 0 k a = -1) ∧
    (get_access_condition 0 k a = (bitsOf k a : Int) ∨
      get_access_condition 0 k a = -1) := by
  have hk3 : k ≤ 3 := by omega
  simp only [get_access_condition]
  norm_num [hk3]
  by_cases h : bitsOf k a = 7 ^^^ (invertedOf k a &&& 7) <;> simp [h]

/-- Witness for C1 at the transport-configuration fixture, slot 0. -/
theorem c1_checksum_gate_witness :
    (get_access_condition 0 0 ⟨0xFF, 0x07, 0x80, 0x00⟩ =
        (bitsOf 0 ⟨0xFF, 0x07, 0x80, 0x00⟩ : Int) ↔
      bitsOf 0 ⟨0xFF, 0x07, 0x80, 0x00⟩ =
        7 ^^^ (invertedOf 0 ⟨0xFF, 0x07, 0x80, 0x00⟩ &&& 0x07)) ∧
    (bitsOf 0 ⟨0xFF, 0x07, 0x80, 0x00⟩ ≠
        7 ^^^ (invertedOf 0 ⟨0xFF, 0x07, 0x80, 0x00⟩ &&& 0x07) →
      get_access_condition 0 0 ⟨0xFF, 0x07, 0x80, 0x00⟩ = -1) ∧
    (get_access_condition 0 0 ⟨0xFF, 0x07, 0x80, 0x00⟩ =
        (bitsOf 0 ⟨0xFF, 0x07, 0x80, 0x00⟩ : Int) ∨
      get_access_condition 0 0 ⟨0xFF, 0x07, 0x80, 0x00⟩ = -1) :=
  c1_checksum_gate ⟨0xFF, 0x07, 0x80, 0x00⟩ 0 (by decide)

/-- C2 counterexample: with access bytes `{0x10, 0x11, 0x00, 0x00}` the slot-0
decode succeeds with value 4 (C1 is the most significant bit), while the
claim's formula `C3*4 + C2*2 + C1` gives 1, so the claim's equality fails. -/
theorem c2_msb_counterexample :
    get_access_condition 0 0 ⟨0x10, 0x11, 0x00, 0x00⟩ = 4 ∧
    C3bit 0 ⟨0x10, 0x11, 0x00, 0x00⟩ * 4 + C2bit 0 ⟨0x10, 0x11, 0x00, 0x00⟩ * 2 +
      C1bit 0 ⟨0x10, 0x11, 0x00, 0x00⟩ = 1 ∧
    get_access_condition 0 0 ⟨0x10, 0x11, 0x00, 0x00⟩ ≠
      ((C3bit 0 ⟨0x10, 0x11, 0x00, 0x00⟩ * 4 + C2bit 0 ⟨0x10, 0x11, 0x00, 0x00⟩ * 2 +
        C1bit 0 ⟨0x10, 0x11, 0x00, 0x00⟩ : Nat) : Int) := by
  decide

/-- C2 (amended): for every access_bits array and slot `k` in 0..3 on which
decoding succeeds, the returned 3-bit value is the concatenation C1 C2 C3
MSB-first, i.e. equals `C1k*4 + C2k*2 + C3k`, where C1k, C2k, C3k sit at the
fixed per-slot positions (for slot k: C1 at bit `4+k` of byte 1, C2 at bit `k`
of byte 2, C3 at bit `4+k` of byte 2). -/
theorem c2_direct_bits_value (a : AccessBits) (k : Nat) (hk : k < 4)
    (hok : get_access_condition 0 k a ≠ -1) :
    get_access_condition 0 k a =
      ((C1bit k a * 4 + C2bit k a * 2 + C3bit k a : Nat) : Int) := by
  have hk3 : k ≤ 3 := by omega
  rw [← bitsOf_eq_direct k hk a]
  simp only [get_access_condition] at hok ⊢
  norm_num [hk3] at hok ⊢
  by_cases h : bitsOf k a = 7 ^^^ (invertedOf k a &&& 7)
  · simp [h]
  · simp [h] at hok

/-- Witness for C2 (amended) at the transport-configuration fixture, slot 3. -/
theorem c2_direct_bits_value_witness :
    get_access_condition 0 3 ⟨0xFF, 0x07, 0x80, 0x00⟩ =
      ((C1bit 3 ⟨0xFF, 0x07, 0x80, 0x00⟩ * 4 + C2bit 3 ⟨0xFF, 0x07, 0x80, 0x00⟩ * 2 +
        C3bit 3 ⟨0xFF, 0x07, 0x80, 0x00⟩ : Nat) : Int) :=
  c2_direct_bits_value ⟨0xFF, 0x07, 0x80, 0x00⟩ 3 (by decide) (by decide)

/-- C3: the geometry resolution maps exactly length 320 to 5 sectors, 1024 to
16, 2048 to 32 and 4096 to 40 (32 standard + 8 extended); every other length
fails with an InvalidLength error carrying the actual length and the allowed
set, and report generation aborts with no rows. -/
theorem c3_geometry_mapping (n : Nat) (data : Dump) :
    sectorsOfSize 320 = .ok 5 ∧
    sectorsOfSize 1024 = .ok 16 ∧
    sectorsOfSize 2048 = .ok 32 ∧
    sectorsOfSize 4096 = .ok (32 + 8) ∧
    (∀ s, s < 40 → blocksIn s = if s < 32 then 4 else 16) ∧
    (n ∉ ([320, 1024, 2048, 4096] : List Nat) →
      sectorsOfSize n = .error (.invalidLength n [320, 1024, 2048, 4096]) ∧
      reportRows data n = .error (.invalidLength n [320, 1024, 2048, 4096])) := by
  refine ⟨rfl, rfl, rfl, rfl, fun s _ => rfl, fun h => ?_⟩
  simp only [List.mem_cons, List.not_mem_nil, or_false, not_or] at h
  obtain ⟨h1, h2, h3, h4⟩ := h
  have hgeo : sectorsOfSize n = .error (.invalidLength n [320, 1024, 2048, 4096]) := by
    simp [sectorsOfSize, h1, h2, h3, h4]
  exact ⟨hgeo, by simp [reportRows, hgeo, Except.map]⟩

/-- Witness for C3 at the unrecognized length 321. -/
theorem c3_geometry_mapping_witness :
    sectorsOfSize 321 = .error (.invalidLength 321 [320, 1024, 2048, 4096]) ∧
    reportRows (fun _ => 0) 321 = .error (.invalidLength 321 [320, 1024, 2048, 4096]) :=
  (c3_geometry_mapping 321 (fun _ => 0)).2.2.2.2.2 (by decide)

/-- C4: for every extended sector (index ≥ 32) and blocks `b`, `b'` in 0..15
with `b / 5 = b' / 5`, decoding the sector's access bytes for block `b` and
for block `b'` yields the same result, success or failure alike (access
rights are shared across 5-block clusters). -/
theorem c4_cluster_sharing (a : AccessBits) (s b b' : Nat) (hs : 32 ≤ s)
    (_hb : b < 16) (_hb' : b' < 16) (h5 : b / 5 = b' / 5) :
    get_access_condition s b a = get_access_condition s b' a := by
  simp only [get_access_condition, if_pos hs, h5]

/-- Witness for C4: blocks 12 and 14 of extended sector 33 share cluster 2. -/
theorem c4_cluster_sharing_witness :
    get_access_condition 33 12 ⟨0xFF, 0x07, 0x80, 0x00⟩ =
      get_access_condition 33 14 ⟨0xFF, 0x07, 0x80, 0x00⟩ :=
  c4_cluster_sharing ⟨0xFF, 0x07, 0x80, 0x00⟩ 33 12 14 (by decide) (by decide)
    (by decide) (by decide)

/-- C5: every sector with index < 32 has 4 blocks of 16 bytes and starts at
byte offset `i * 64`; every sector with index ≥ 32 has 16 blocks of 16 bytes
and starts at byte offset `2048 + (i - 32) * 256`; the block size is 16 in
both regimes and there is no third regime. -/
theorem c5_sector_geometry (i : Nat) :
    (i < 32 → blocksIn i = 4 ∧ block_size = 16 ∧ sectorStart i = i * 64) ∧
    (32 ≤ i → blocksIn i = 16 ∧ block_size = 16 ∧
      sectorStart i = 2048 + (i - 32) * 256) := by
  constructor <;> intro h
  · have : i < 32 := h
    simp [blocksIn, block_size, sectorStart, sectorSize, this]
  · have hn : ¬ i < 32 := by omega
    simp [blocksIn, block_size, sectorStart, sectorSize, hn]

/-- Witness for C5 at the extended sector 35. -/
theorem c5_sector_geometry_witness :
    blocksIn 35 = 16 ∧ block_size = 16 ∧ sectorStart 35 = 2048 + (35 - 32) * 256 :=
  (c5_sector_geometry 35).2 (by decide)

/-- C6 counterexample: on the fixture `{0xFF, 0x07, 0x80, 0x00}` slot 3
decodes to access condition 1, not 0, so the claim that all four slots give
condition 0 fails. -/
theorem c6_fixture_counterexample :
    get_access_condition 0 3 ⟨0xFF, 0x07, 0x80, 0x00⟩ = 1 ∧
    get_access_condition 0 3 ⟨0xFF, 0x07, 0x80, 0x00⟩ ≠ 0 := by
  decide

/-- C6 (amended): on the fixture `{0xFF, 0x07, 0x80, 0x00}` decoding succeeds
for every slot — slots 0, 1 and 2 give access condition 0 and slot 3 gives
access condition 1 (the Mifare transport configuration); no slot reports a
ChecksumMismatch. -/
theorem c6_fixture_decodes :
    get_access_condition 0 0 ⟨0xFF, 0x07, 0x80, 0x00⟩ = 0 ∧
    get_access_condition 0 1 ⟨0xFF, 0x07, 0x80, 0x00⟩ = 0 ∧
    get_access_condition 0 2 ⟨0xFF, 0x07, 0x80, 0x00⟩ = 0 ∧
    get_access_condition 0 3 ⟨0xFF, 0x07, 0x80, 0x00⟩ = 1 := by
  decide

/-- C7: a block whose access-condition decode fails does not abort the
report: the full report is still produced with one row per block of every
sector, the affected block's row carries the explicit `ERR` marker in place
of a numeric condition together with an empty permission text, and every
block's row (the others in particular) is built from that block's own decode
alone. -/
theorem c7_mismatch_localized (data : Dump) (size n : Nat)
    (hn : sectorsOfSize size = .ok n) (s b : Nat) (_hs : s < n)
    (hb : b < blocksIn s)
    (hfail : get_access_condition s b (accessBitsOf data s) = -1) :
    (∃ rows, reportRows data size = .ok rows ∧ rows.length = totalBlocks n) ∧
    ((sectorRows data s).getD b emptyRow).str_access_bits = "ERR" ∧
    ((sectorRows data s).getD b emptyRow).str_permissions = "" ∧
    (∀ s' b', b' < blocksIn s' →
      (sectorRows data s').getD b' emptyRow =
        rowFor s' b' (blocksIn s')
          (get_access_condition s' b' (accessBitsOf data s'))) := by
  refine ⟨⟨(List.range n).flatMap (sectorRows data), ?_, ?_⟩, ?_, ?_,
    fun s' b' hb' => sectorRows_getD data s' b' hb'⟩
  · simp [reportRows, hn, Except.map]
  · simp [List.length_flatMap, totalBlocks, Function.comp_def, sectorRows_length]
  · rw [sectorRows_getD data s b hb, hfail]
    norm_num [rowFor, rowFields]
  · rw [sectorRows_getD data s b hb, hfail]
    norm_num [rowFor, rowFields]

/-- Witness for C7 on a 320-byte all-zero dump, whose all-zero access bytes
fail the redundancy check on every block. -/
theorem c7_mismatch_localized_witness :
    (∃ rows, reportRows (fun _ => 0 : Dump) 320 = .ok rows ∧
      rows.length = totalBlocks 5) ∧
    ((sectorRows (fun _ => 0 : Dump) 0).getD 0 emptyRow).str_access_bits = "ERR" ∧
    ((sectorRows (fun _ => 0 : Dump) 0).getD 0 emptyRow).str_permissions = "" ∧
    (sectorRows (fun _ => 0 : Dump) 1).getD 2 emptyRow =
      rowFor 1 2 (blocksIn 1)
        (get_access_condition 1 2 (accessBitsOf (fun _ => 0 : Dump) 1)) :=
  ⟨(c7_mismatch_localized (fun _ => 0) 320 5 rfl 0 0 (by decide) (by decide)
      (by decide)).1,
   (c7_mismatch_localized (fun _ => 0) 320 5 rfl 0 0 (by decide) (by decide)
      (by decide)).2.1,
   (c7_mismatch_localized (fun _ => 0) 320 5 rfl 0 0 (by decide) (by decide)
      (by decide)).2.2.1,
   (c7_mismatch_localized (fun _ => 0) 320 5 rfl 0 0 (by decide) (by decide)
      (by decide)).2.2.2 1 2 (by decide)⟩

/-- C8: when the manufacturer block (sector 0, block 0) decodes to any valid
condition `c` in 0..7, its permission text is the fixed immutable-block
description `-` independent of `c`, while the decoded value `c` itself is
still displayed via `bit_rep`; every other role takes its permission text
from the trailer table or the data table indexed by `c`. -/
theorem c8_manufacturer_fixed (c : Nat) (hc : c < 8) (blocks s b : Nat) :
    (rowFields 0 0 blocks (c : Int)).2 = "-" ∧
    (rowFields 0 0 blocks (c : Int)).1 = bit_rep.getD c "" ∧
    (¬(s = 0 ∧ b = 0) →
      (rowFields s b blocks (c : Int)).2 =
        if b = blocks - 1 then permission_trailer.getD c ""
        else permission_data.getD c "") := by
  have hneg : ¬((c : Int) < 0 ∨ 7 < (c : Int)) := by omega
  refine ⟨?_, ?_, fun hrole => ?_⟩
  · simp only [rowFields, if_neg hneg]
    simp
  · simp only [rowFields, if_neg hneg]
    simp
  · have hrole' : ¬(b = 0 ∧ s = 0) := fun h => hrole ⟨h.2, h.1⟩
    simp only [rowFields, if_neg hneg, if_neg hrole']
    split_ifs <;> simp

/-- Witness for C8 at condition 3 in a 4-block sector: the manufacturer text
is fixed while a data block of sector 2 reads the data table. -/
theorem c8_manufacturer_fixed_witness :
    (rowFields 0 0 4 ((3 : Nat) : Int)).2 = "-" ∧
    (rowFields 0 0 4 ((3 : Nat) : Int)).1 = bit_rep.getD 3 "" ∧
    (rowFields 2 1 4 ((3 : Nat) : Int)).2 =
      (if (1 : Nat) = 4 - 1 then permission_trailer.getD 3 ""
       else permission_data.getD 3 "") :=
  ⟨(c8_manufacturer_fixed 3 (by decide) 4 2 1).1,
   (c8_manufacturer_fixed 3 (by decide) 4 2 1).2.1,
   (c8_manufacturer_fixed 3 (by decide) 4 2 1).2.2 (by decide)⟩

/-- C9 counterexample: in forced-1024 mode an input that supplied 0 bytes
(fewer than 1024; the buffer stays all zero) is not rejected — the size is
forced to 1024, the geometry resolves to 16 sectors and a full 64-row report
is produced. -/
theorem c9_forced_counterexample :
    effectiveSize true 0 = 1024 ∧
    sectorsOfSize (effectiveSize true 0) = .ok 16 ∧
    (reportRows (fun _ => 0 : Dump) (effectiveSize true 0)).toOption.map
      List.length = some (totalBlocks 16) := by
  exact ⟨rfl, rfl, by decide⟩

/-- C9 (amended): in forced-1024 mode the number of bytes actually supplied
is ignored — the size is unconditionally set to 1024 (missing bytes read as
zero from the pre-zeroed buffer) and the input is treated as a standard
16-sector 1024-byte dump. -/
theorem c9_forced_size_ignored (bytesRead : Nat) :
    effectiveSize true bytesRead = 1024 ∧
    sectorsOfSize (effectiveSize true bytesRead) = .ok 16 :=
  ⟨rfl, rfl⟩

/-- C10: the decoder is total and range-safe: for every sector index, block
index and access_bits array it returns either `-1` or a value in 0..7, and
any reduced slot index outside 0..3 yields `-1` rather than an unhandled
case. -/
theorem c10_decoder_total (sector block : Nat) (a : AccessBits) :
    (get_access_condition sector block a = -1 ∨
      ∃ v : Nat, v ≤ 7 ∧ get_access_condition sector block a = (v : Int)) ∧
    (3 < (if 32 ≤ sector then block / 5 else block) →
      get_access_condition sector block a = -1) := by
  constructor
  · by_cases h3 : (if 32 ≤ sector then block / 5 else block) ≤ 3
    · by_cases hc : bitsOf (if 32 ≤ sector then block / 5 else block) a =
          7 ^^^ (invertedOf (if 32 ≤ sector then block / 5 else block) a &&& 0x07)
      · refine Or.inr ⟨bitsOf (if 32 ≤ sector then block / 5 else block) a, ?_, ?_⟩
        · have := bitsOf_lt (if 32 ≤ sector then block / 5 else block) a
          omega
        · simp [get_access_condition, h3, hc]
      · exact Or.inl (by simp [get_access_condition, h3, hc])
    · exact Or.inl (by simp [get_access_condition, h3])
  · intro h
    have h3 : ¬(if 32 ≤ sector then block / 5 else block) ≤ 3 := by omega
    simp [get_access_condition, h3]

/-- Witness for C10: block 9 of a standard sector reduces to slot 9 > 3 and
yields `-1`; block 0 falls in the total range result. -/
theorem c10_decoder_total_witness :
    (get_access_condition 0 0 (⟨0, 0, 0, 0⟩ : AccessBits) = -1 ∨
      ∃ v : Nat, v ≤ 7 ∧
        get_access_condition 0 0 (⟨0, 0, 0, 0⟩ : AccessBits) = (v : Int)) ∧
    get_access_condition 0 9 (⟨0, 0, 0, 0⟩ : AccessBits) = -1 :=
  ⟨(c10_decoder_total 0 0 ⟨0, 0, 0, 0⟩).1,
   (c10_decoder_total 0 9 ⟨0, 0, 0, 0⟩).2 (by decide)⟩

end Mfdread
